import Mathlib

/-!
Verification of the wiki permission core (`wiki/lib/permissions.py`,
`wiki/directories/views.py`, `wiki/pages/views.py`).

The policy evaluator walks the parent chain of a directory; we represent a
directory as its own record (`DirRec`) together with the list of its
proper ancestors, nearest parent first.  The Python `while parent is not
None` loops become structural recursion over that ancestor list.
-/

namespace Wiki

/-- The `Directory.Visibility` / `Page.Visibility` choices (`priv` stands for
the source value `"private"`, a reserved word in Lean). -/
inductive Visibility where
  | public
  | internal
  | priv
deriving DecidableEq, Repr

/-- The `Directory.Editability` / `Page.Editability` choices. -/
inductive Editability where
  | restricted
  | internal
deriving DecidableEq, Repr

/-- The `DirectoryPermission.PermissionType` / `PagePermission.PermissionType` choices. -/
inductive PermType where
  | view
  | edit
  | owner
deriving DecidableEq, Repr

/-- A `DirectoryPermission` / `PagePermission` row: nullable user FK,
nullable group FK, and a permission type. -/
structure Perm where
  user : Option Nat
  group : Option Nat
  ptype : PermType
deriving DecidableEq, Repr

/-- A request user: `is_authenticated`, primary key, and group ids
(`user.groups.values_list("id", flat=True)`). -/
structure User where
  is_authenticated : Bool
  id : Nat
  groups : List Nat
deriving DecidableEq, Repr

/-- The per-directory fields read by the evaluator: `path`, `visibility`,
`editability`, `owner_id`, and the `permissions` rows attached to it. -/
structure DirRec where
  path : String
  visibility : Visibility
  editability : Editability
  ownerId : Option Nat
  perms : List Perm
deriving DecidableEq, Repr

/-- A directory together with its proper ancestors (`parent`,
`parent.parent`, ...), nearest first. -/
structure Directory where
  node : DirRec
  ancestors : List DirRec
deriving DecidableEq, Repr

/-- A page: visibility, editability, `owner_id`, its `permissions` rows,
and its (nullable) directory. -/
structure Page where
  visibility : Visibility
  editability : Editability
  ownerId : Option Nat
  perms : List Perm
  directory : Option Directory
deriving DecidableEq, Repr

/-- Model of `_VISIBILITY_OPENNESS`: higher number = more open. -/
def visibilityOpenness : Visibility → Nat
  | .priv => 0
  | .internal => 1
  | .public => 2

/-- Model of `is_more_open_than`: the page visibility ranks strictly above
the directory visibility. -/
def is_more_open_than (page_visibility directory_visibility : Visibility) : Bool :=
  visibilityOpenness page_visibility > visibilityOpenness directory_visibility

/-- Model of `is_editability_more_open_than_visibility`: FLP-staff editability
with private visibility is the single invalid combination. -/
def is_editability_more_open_than_visibility
    (editability : Editability) (visibility : Visibility) : Bool :=
  editability = Editability.internal && visibility = Visibility.priv

/-- Model of `is_system_owner`: authenticated and equal to `SystemConfig.owner_id`.
`sys` is `none` when the config row is missing or its owner is null. -/
def is_system_owner (sys : Option Nat) (u : User) : Bool :=
  u.is_authenticated &&
    (match sys with
     | some ownerId => ownerId = u.id
     | none => false)

/-- Model of `_user_or_group_q` applied to one permission row: the user FK
of the row is this user, or its group FK is one of the groups of the
user. -/
def q_matches (u : User) (g : Perm) : Bool :=
  g.user = some u.id ||
    (match g.group with
     | some gid => u.groups.contains gid
     | none => false)

/-- The edit-permission filter: `_user_or_group_q` AND
`permission_type__in=[EDIT, OWNER]`. -/
def q_edit_matches (u : User) (g : Perm) : Bool :=
  q_matches u g && (g.ptype = PermType.edit || g.ptype = PermType.owner)

/-- The ancestor loop of `can_view_directory`: at each ancestor a matching
permission row (any type) or ancestor ownership grants access. -/
def viewWalk (u : User) : List DirRec → Bool
  | [] => false
  | a :: rest =>
    if a.perms.any (q_matches u) then true
    else if a.ownerId = some u.id then true
    else viewWalk u rest

/-- The ancestry loop of `can_view_page`: matching permission rows only
(ownership is not consulted). -/
def pagePermWalk (u : User) : List DirRec → Bool
  | [] => false
  | a :: rest =>
    if a.perms.any (q_matches u) then true
    else pagePermWalk u rest

/-- The EDIT/OWNER ancestry loop shared by `can_edit_page` and
`can_edit_directory`. -/
def editPermWalk (u : User) : List DirRec → Bool
  | [] => false
  | a :: rest =>
    if a.perms.any (q_edit_matches u) then true
    else editPermWalk u rest

/-- The chain `directory, parent, parent.parent, ...` as records. -/
def dirChain (d : Directory) : List DirRec :=
  d.node :: d.ancestors

/-- Model of `can_view_directory`. -/
def can_view_directory (sys : Option Nat) (u : User) (d : Directory) : Bool :=
  if d.node.path = "" then true
  else if d.node.visibility = Visibility.public then true
  else if u.is_authenticated = false then false
  else if d.node.visibility = Visibility.internal then true
  else if is_system_owner sys u then true
  else if d.node.ownerId = some u.id then true
  else if d.node.perms.any (q_matches u) then true
  else viewWalk u d.ancestors

/-- Model of `can_view_page`. -/
def can_view_page (sys : Option Nat) (u : User) (p : Page) : Bool :=
  if p.visibility = Visibility.public then true
  else if u.is_authenticated = false then false
  else if (match p.directory with
           | some d => !(can_view_directory sys u d)
           | none => false) then false
  else if p.visibility = Visibility.internal then true
  else if is_system_owner sys u then true
  else if p.ownerId = some u.id then true
  else if p.perms.any (q_matches u) then true
  else match p.directory with
       | some d => pagePermWalk u (dirChain d)
       | none => false

/-- Model of `can_edit_page`. -/
def can_edit_page (sys : Option Nat) (u : User) (p : Page) : Bool :=
  if u.is_authenticated = false then false
  else if p.editability = Editability.internal then true
  else if is_system_owner sys u then true
  else if p.ownerId = some u.id then true
  else if p.perms.any (q_edit_matches u) then true
  else match p.directory with
       | some d => editPermWalk u (dirChain d)
       | none => false

/-- Model of `can_edit_directory`: the EDIT/OWNER loop starts at the directory
itself and walks up. -/
def can_edit_directory (sys : Option Nat) (u : User) (d : Directory) : Bool :=
  if u.is_authenticated = false then false
  else if d.node.editability = Editability.internal then true
  else if is_system_owner sys u then true
  else if d.node.ownerId = some u.id then true
  else editPermWalk u (dirChain d)

/-! ### Write-time validation (`wiki/pages/views.py`)

`page_create`, `page_edit` and `page_move` each run the invariant checks
before any `save()`; on a violation they render an error and return, so
the stored state is untouched. -/

/-- Outcome of a POST write path: saved, or rejected with the specific
invariant whose error message was rendered. -/
inductive WriteOutcome where
  | saved
  | opennessError
  | editabilityError
deriving DecidableEq, Repr

/-- The visibility/editability pair a write proposes or a row stores. -/
structure PageWrite where
  visibility : Visibility
  editability : Editability
deriving DecidableEq, Repr

/-- The POST branch of `page_create`: check `is_more_open_than` against
the directory, then `is_editability_more_open_than_visibility`; only when
both pass is the page appended to the store. -/
def page_create_post (db : List PageWrite) (proposed : PageWrite)
    (dirVis : Option Visibility) : WriteOutcome × List PageWrite :=
  if (match dirVis with
      | some dv => is_more_open_than proposed.visibility dv
      | none => false) then
    (WriteOutcome.opennessError, db)
  else if is_editability_more_open_than_visibility
      proposed.editability proposed.visibility then
    (WriteOutcome.editabilityError, db)
  else
    (WriteOutcome.saved, db ++ [proposed])

/-- The POST branch of `page_edit`: same two checks before `page.save()`;
on a violation the stored row is untouched. -/
def page_edit_post (stored proposed : PageWrite)
    (dirVis : Option Visibility) : WriteOutcome × PageWrite :=
  if (match dirVis with
      | some dv => is_more_open_than proposed.visibility dv
      | none => false) then
    (WriteOutcome.opennessError, stored)
  else if is_editability_more_open_than_visibility
      proposed.editability proposed.visibility then
    (WriteOutcome.editabilityError, stored)
  else
    (WriteOutcome.saved, proposed)

/-- The POST branch of `page_move`: `is_more_open_than` against the new
directory gates the reassignment of `page.directory`. -/
def page_move_post (pageVis : Visibility) (curDir newDir : Option Visibility) :
    WriteOutcome × Option Visibility :=
  if (match newDir with
      | some dv => is_more_open_than pageVis dv
      | none => false) then
    (WriteOutcome.opennessError, curDir)
  else
    (WriteOutcome.saved, newDir)

/-! ### Permission propagation (`_directory_apply_permissions_inner`)

The subtree the operation rewrites is modelled as a rose tree: each
directory node carries its own visibility/editability/permission rows and
its direct pages. -/

/-- A page row as touched by `apply_to_pages`. -/
structure PageNode where
  visibility : Visibility
  editability : Editability
  perms : List Perm
deriving DecidableEq, Repr

/-- A directory subtree: own fields, `permissions`, direct `pages`, and
`children`. -/
inductive DirTree where
  | mk (visibility : Visibility) (editability : Editability)
       (perms : List Perm) (pages : List PageNode) (children : List DirTree)

def DirTree.visibility : DirTree → Visibility
  | .mk v _ _ _ _ => v

def DirTree.editability : DirTree → Editability
  | .mk _ e _ _ _ => e

def DirTree.perms : DirTree → List Perm
  | .mk _ _ ps _ _ => ps

def DirTree.pages : DirTree → List PageNode
  | .mk _ _ _ pgs _ => pgs

def DirTree.children : DirTree → List DirTree
  | .mk _ _ _ _ cs => cs

/-- The `get_or_create` lookup key built from a source grant `dp`: when
`dp.user_id` is set the lookup filters on `(permission_type, user)`,
otherwise on `(permission_type, group)` (the other column only appears in
`defaults`). -/
def pp_lookup (dp g : Perm) : Bool :=
  match dp.user with
  | some uid => g.ptype = dp.ptype && g.user = some uid
  | none => g.ptype = dp.ptype && g.group = dp.group

/-- The row `get_or_create` inserts when the lookup finds nothing:
lookup columns from `dp`, the other principal column from `defaults`
(`None`). -/
def created_from (dp : Perm) : Perm :=
  match dp.user with
  | some uid => { user := some uid, group := none, ptype := dp.ptype }
  | none => { user := none, group := dp.group, ptype := dp.ptype }

/-- One `get_or_create` call against the grant list of a target. -/
def get_or_create (perms : List Perm) (dp : Perm) : List Perm :=
  if perms.any (pp_lookup dp) then perms else perms ++ [created_from dp]

/-- The `for dp in dir_perms: ... get_or_create(...)` loop. -/
def ensureGrants (dirPerms perms : List Perm) : List Perm :=
  dirPerms.foldl get_or_create perms

/-- Model of `apply_to_pages` on one page, with the top-level source
values `sv`/`se`/`sp`. -/
def applyToPage (sv : Visibility) (se : Editability) (sp : List Perm)
    (pg : PageNode) : PageNode :=
  { visibility := sv, editability := se, perms := ensureGrants sp pg.perms }

mutual

/-- Model of `apply_to_dirs_recursive` acting on one child: overwrite its
visibility/editability from the top-level source, ensure the source
grants, rewrite its pages, recurse into its children. -/
def applyChild (sv : Visibility) (se : Editability) (sp : List Perm) :
    DirTree → DirTree
  | .mk _ _ ps pgs cs =>
    .mk sv se (ensureGrants sp ps) (pgs.map (applyToPage sv se sp))
      (applyChildren sv se sp cs)

/-- The `for child in parent_dir.children.all()` loop. -/
def applyChildren (sv : Visibility) (se : Editability) (sp : List Perm) :
    List DirTree → List DirTree
  | [] => []
  | c :: cs => applyChild sv se sp c :: applyChildren sv se sp cs

end

/-- The `scope` POST parameter. -/
inductive Scope where
  | direct
  | recursive
deriving DecidableEq, Repr

/-- The whole POST mutation: direct pages always, children only with
`scope == "recursive"`; the own row of the top directory is never
written. -/
def applyPermissions (scope : Scope) : DirTree → DirTree
  | .mk v e ps pgs cs =>
    .mk v e ps (pgs.map (applyToPage v e ps))
      (match scope with
       | .recursive => applyChildren v e ps cs
       | .direct => cs)

/-- The flash message the POST branch attaches before redirecting. -/
def applyPermissionsMessage : Scope → String
  | .recursive =>
    "Permissions applied recursively to all pages and subdirectories."
  | .direct => "Permissions applied to direct child pages."

/-- What `_directory_apply_permissions_inner` hands back from a POST: the
mutated subtree (via the store) and a redirect carrying only the flash
message. -/
structure ApplyPostResult where
  tree : DirTree
  message : String

/-- The POST branch of `_directory_apply_permissions_inner`. -/
def directoryApplyPermissionsPost (scope : Scope) (t : DirTree) :
    ApplyPostResult :=
  { tree := applyPermissions scope t
    message := applyPermissionsMessage scope }

mutual

/-- The GET-branch `count_recursive`: pages in the subtree (own pages
included) and directories strictly below. -/
def count_recursive : DirTree → Nat × Nat
  | .mk _ _ _ pgs cs =>
    let rest := count_list cs
    (pgs.length + rest.1, cs.length + rest.2)

/-- The `for child in d.children.all()` accumulation in
`count_recursive`. -/
def count_list : List DirTree → Nat × Nat
  | [] => (0, 0)
  | c :: cs =>
    let a := count_recursive c
    let b := count_list cs
    (a.1 + b.1, a.2 + b.2)

end

mutual

/-- Every page in the subtree, own pages first. -/
def allPages : DirTree → List PageNode
  | .mk _ _ _ pgs cs => pgs ++ allPagesList cs

def allPagesList : List DirTree → List PageNode
  | [] => []
  | c :: cs => allPages c ++ allPagesList cs

end

mutual

/-- Every directory strictly below the given one. -/
def allSubdirs : DirTree → List DirTree
  | .mk _ _ _ _ cs => allSubdirsList cs

def allSubdirsList : List DirTree → List DirTree
  | [] => []
  | c :: cs => c :: (allSubdirs c ++ allSubdirsList cs)

end

/-! ### Concrete fixtures -/

/-- An unauthenticated request user. -/
def anon : User := { is_authenticated := false, id := 0, groups := [] }

/-- An authenticated user with id 7 and no groups. -/
def alice : User := { is_authenticated := true, id := 7, groups := [] }

/-- A private directory owned by user 1, no grants, directly under the
root. -/
def privDir : Directory :=
  { node := { path := "secret", visibility := Visibility.priv
              editability := Editability.restricted
              ownerId := some 1, perms := [] }
    ancestors := [] }

/-- A public page stored inside `privDir`. -/
def pubPageInPrivDir : Page :=
  { visibility := Visibility.public, editability := Editability.restricted
    ownerId := some 1, perms := [], directory := some privDir }

/-- An internal page stored inside `privDir`. -/
def internalPageInPrivDir : Page :=
  { visibility := Visibility.internal, editability := Editability.restricted
    ownerId := some 1, perms := [], directory := some privDir }

/-! ### Claim theorems -/

/-- C1: a page whose visibility is Public is viewable by every principal,
authenticated or not, whatever its directory is — the public check is the
first branch of `can_view_page`, before the authentication check and the
directory gate. -/
theorem public_page_viewable_by_all (sys : Option Nat) (u : User) (p : Page)
    (h : p.visibility = Visibility.public) :
    can_view_page sys u p = true := by
  simp [can_view_page, h]

/-- C1 witness: the anonymous principal sees a public page inside a
private directory. -/
theorem public_page_viewable_by_all_witness :
    pubPageInPrivDir.visibility = Visibility.public ∧
      can_view_page none anon pubPageInPrivDir = true :=
  ⟨rfl, public_page_viewable_by_all none anon pubPageInPrivDir rfl⟩

/-- C2: for an authenticated principal and a non-public page in a
directory, failing `can_view_directory` forces `can_view_page` to be
false — the directory gate hides non-public contents. -/
theorem directory_gate_blocks_page (sys : Option Nat) (u : User) (p : Page)
    (d : Directory) (hauth : u.is_authenticated = true)
    (hdir : p.directory = some d)
    (hvis : p.visibility ≠ Visibility.public)
    (hgate : can_view_directory sys u d = false) :
    can_view_page sys u p = false := by
  unfold can_view_page
  rw [hdir]
  simp [hvis, hgate, hauth]

/-- C2 witness: with the private directory unviewable by `alice` (no
grant, not owner, not system owner), the internal page inside it is
hidden from her. -/
theorem directory_gate_blocks_page_witness :
    alice.is_authenticated = true ∧
      internalPageInPrivDir.directory = some privDir ∧
      internalPageInPrivDir.visibility ≠ Visibility.public ∧
      can_view_directory none alice privDir = false ∧
      can_view_page none alice internalPageInPrivDir = false :=
  ⟨rfl, rfl, by decide, by decide,
    directory_gate_blocks_page none alice internalPageInPrivDir privDir
      rfl rfl (by decide) (by decide)⟩

/-- C3: against a directory, the write validator rejects with the
openness error exactly when the proposed visibility ranks strictly above
that of the directory under Private(0) < Internal(1) < Public(2), rejects with
the editability error exactly when editability is Internal and visibility
is Private, and accepts every other combination. -/
theorem validator_characterization (v : Visibility) (e : Editability)
    (cv : Visibility) (db : List PageWrite) :
    ((page_create_post db { visibility := v, editability := e } (some cv)).1 =
        WriteOutcome.opennessError ↔
      visibilityOpenness v > visibilityOpenness cv) ∧
    ((page_create_post db { visibility := v, editability := e } (some cv)).1 =
        WriteOutcome.editabilityError ↔
      e = Editability.internal ∧ v = Visibility.priv) ∧
    ((page_create_post db { visibility := v, editability := e } (some cv)).1 =
        WriteOutcome.saved ↔
      ¬(visibilityOpenness v > visibilityOpenness cv) ∧
        ¬(e = Editability.internal ∧ v = Visibility.priv)) := by
  cases v <;> cases e <;> cases cv <;>
    simp [page_create_post, is_more_open_than,
      is_editability_more_open_than_visibility, visibilityOpenness]

/-! ### Helper lemmas on the walks -/

theorem is_system_owner_self (u : User) (h : u.is_authenticated = true) :
    is_system_owner (some u.id) u = true := by
  simp [is_system_owner, h]

theorem sysOwnerViewDir (sys : Option Nat) (u : User)
    (h1 : u.is_authenticated = true) (h2 : sys = some u.id) (d : Directory) :
    can_view_directory sys u d = true := by
  simp [can_view_directory, is_system_owner, h1, h2]

theorem sysOwnerEditDir (sys : Option Nat) (u : User)
    (h1 : u.is_authenticated = true) (h2 : sys = some u.id) (d : Directory) :
    can_edit_directory sys u d = true := by
  simp [can_edit_directory, is_system_owner, h1, h2]

theorem sysOwnerViewPage (sys : Option Nat) (u : User)
    (h1 : u.is_authenticated = true) (h2 : sys = some u.id) (p : Page) :
    can_view_page sys u p = true := by
  cases hp : p.directory with
  | none => simp [can_view_page, hp, is_system_owner, h1, h2]
  | some d =>
    have hv := sysOwnerViewDir sys u h1 h2 d
    rw [h2] at hv
    simp [can_view_page, hp, hv, is_system_owner, h1, h2]

theorem sysOwnerEditPage (sys : Option Nat) (u : User)
    (h1 : u.is_authenticated = true) (h2 : sys = some u.id) (p : Page) :
    can_edit_page sys u p = true := by
  simp [can_edit_page, is_system_owner, h1, h2]

theorem editPermWalk_of_mem (u : User) (c : DirRec) (l : List DirRec)
    (hmem : c ∈ l) (hany : c.perms.any (q_edit_matches u) = true) :
    editPermWalk u l = true := by
  induction l with
  | nil => cases hmem
  | cons a rest ih =>
    rcases List.mem_cons.mp hmem with h | h
    · subst h
      simp [editPermWalk, hany]
    · unfold editPermWalk
      split
      · rfl
      · exact ih h

theorem viewWalk_of_owner_mem (u : User) (a : DirRec) (l : List DirRec)
    (hmem : a ∈ l) (hown : a.ownerId = some u.id) :
    viewWalk u l = true := by
  induction l with
  | nil => cases hmem
  | cons b rest ih =>
    rcases List.mem_cons.mp hmem with h | h
    · subst h
      unfold viewWalk
      split
      · rfl
      · simp [hown]
    · unfold viewWalk
      split
      · rfl
      · split
        · rfl
        · exact ih h

theorem pagePermWalk_false (u : User) (l : List DirRec)
    (h : ∀ a ∈ l, a.perms.any (q_matches u) = false) :
    pagePermWalk u l = false := by
  induction l with
  | nil => rfl
  | cons a rest ih =>
    unfold pagePermWalk
    rw [h a (List.mem_cons_self a rest)]
    simp only [Bool.false_eq_true, if_false]
    exact ih (fun b hb => h b (List.mem_cons_of_mem a hb))

theorem any_q_matches_false_edit (u : User) (perms : List Perm)
    (h : perms.any (q_matches u) = false) :
    perms.any (q_edit_matches u) = false := by
  rw [List.any_eq_false] at h ⊢
  intro g hg
  simp [q_edit_matches, h g hg]

theorem editPermWalk_false (u : User) (l : List DirRec)
    (h : ∀ a ∈ l, a.perms.any (q_matches u) = false) :
    editPermWalk u l = false := by
  induction l with
  | nil => rfl
  | cons a rest ih =>
    unfold editPermWalk
    rw [any_q_matches_false_edit u a.perms (h a (List.mem_cons_self a rest))]
    simp only [Bool.false_eq_true, if_false]
    exact ih (fun b hb => h b (List.mem_cons_of_mem a hb))

/-- C4: the configured system owner (authenticated, id equal to the
SystemConfig owner) can view and edit every directory and every page,
whatever their visibility, editability, grants or position. -/
theorem system_owner_supremacy (sys : Option Nat) (u : User)
    (h1 : u.is_authenticated = true) (h2 : sys = some u.id) :
    (∀ d : Directory, can_view_directory sys u d = true ∧
      can_edit_directory sys u d = true) ∧
    (∀ p : Page, can_view_page sys u p = true ∧
      can_edit_page sys u p = true) :=
  ⟨fun d => ⟨sysOwnerViewDir sys u h1 h2 d, sysOwnerEditDir sys u h1 h2 d⟩,
   fun p => ⟨sysOwnerViewPage sys u h1 h2 p, sysOwnerEditPage sys u h1 h2 p⟩⟩

/-- C4 witness: with `alice` as the configured system owner she can view
and edit a private directory she does not own and a non-public page
inside it. -/
theorem system_owner_supremacy_witness :
    alice.is_authenticated = true ∧
      can_view_directory (some alice.id) alice privDir = true ∧
      can_edit_directory (some alice.id) alice privDir = true ∧
      can_view_page (some alice.id) alice internalPageInPrivDir = true ∧
      can_edit_page (some alice.id) alice internalPageInPrivDir = true :=
  have h := system_owner_supremacy (some alice.id) alice rfl rfl
  ⟨rfl, (h.1 privDir).1, (h.1 privDir).2,
    (h.2 internalPageInPrivDir).1, (h.2 internalPageInPrivDir).2⟩

/-- C9: an Edit or Owner grant matching an authenticated principal (by
user id or one of the groups of the principal) on any record of the
container chain makes `can_edit_page` true. -/
theorem edit_grant_cascades (sys : Option Nat) (u : User) (p : Page)
    (d : Directory) (c : DirRec)
    (hauth : u.is_authenticated = true)
    (hdir : p.directory = some d)
    (hchain : c ∈ dirChain d)
    (hgrant : ∃ g ∈ c.perms, q_matches u g = true ∧
      (g.ptype = PermType.edit ∨ g.ptype = PermType.owner)) :
    can_edit_page sys u p = true := by
  obtain ⟨g, hg, hq, hty⟩ := hgrant
  have hany : c.perms.any (q_edit_matches u) = true := by
    rw [List.any_eq_true]
    refine ⟨g, hg, ?_⟩
    rcases hty with h | h <;> simp [q_edit_matches, hq, h]
  have hwalk := editPermWalk_of_mem u c (dirChain d) hchain hany
  simp [can_edit_page, hauth, hdir, hwalk]

/-- An authenticated user with id 8 and no groups. -/
def bob : User := { is_authenticated := true, id := 8, groups := [] }

/-- A private top-level directory record carrying an Edit grant for user
8. -/
def engDirRec : DirRec :=
  { path := "eng", visibility := Visibility.priv
    editability := Editability.restricted, ownerId := some 1
    perms := [{ user := some 8, group := none, ptype := PermType.edit }] }

/-- A private grant-free directory nested under `engDirRec`. -/
def devopsDir : Directory :=
  { node := { path := "eng/devops", visibility := Visibility.priv
              editability := Editability.restricted
              ownerId := some 1, perms := [] }
    ancestors := [engDirRec] }

/-- A private restricted page inside `devopsDir`. -/
def runbookPage : Page :=
  { visibility := Visibility.priv, editability := Editability.restricted
    ownerId := some 1, perms := [], directory := some devopsDir }

/-- C9 witness: `bob` holds an Edit grant on the grandparent directory
`eng` and can therefore edit a private restricted page two levels down. -/
theorem edit_grant_cascades_witness :
    bob.is_authenticated = true ∧
      runbookPage.directory = some devopsDir ∧
      engDirRec ∈ dirChain devopsDir ∧
      can_edit_page none bob runbookPage = true :=
  ⟨rfl, rfl, by decide,
    edit_grant_cascades none bob runbookPage devopsDir engDirRec rfl rfl
      (by decide)
      ⟨{ user := some 8, group := none, ptype := PermType.edit },
        by decide, by decide, Or.inl rfl⟩⟩

/-- An authenticated user with id 9 and no groups. -/
def carol : User := { is_authenticated := true, id := 9, groups := [] }

/-- A private top-level directory record owned by user 9, no grants. -/
def topOwnedRec : DirRec :=
  { path := "top", visibility := Visibility.priv
    editability := Editability.restricted, ownerId := some 9, perms := [] }

/-- A private restricted grant-free subdirectory whose parent is owned by
user 9 while the subdirectory itself is owned by user 1. -/
def subDirOwnedAncestor : Directory :=
  { node := { path := "top/sub", visibility := Visibility.priv
              editability := Editability.restricted
              ownerId := some 1, perms := [] }
    ancestors := [topOwnedRec] }

/-- Like `subDirOwnedAncestor` but with editability Internal. -/
def subDirInternalEditability : Directory :=
  { node := { path := "top/sub2", visibility := Visibility.priv
              editability := Editability.internal
              ownerId := some 1, perms := [] }
    ancestors := [topOwnedRec] }

/-- A private restricted grant-free page inside `subDirOwnedAncestor`. -/
def pageUnderOwnedAncestor : Page :=
  { visibility := Visibility.priv, editability := Editability.restricted
    ownerId := some 1, perms := [], directory := some subDirOwnedAncestor }

/-- C10 counterexample: `carol` owns the parent of `subDirInternalEditability`,
holds no grants anywhere, does not own it and is not the system owner —
the claim predicts `CanEdit(carol, it) == false`, but because its
editability is Internal `can_edit_directory` returns true. -/
theorem ancestor_ownership_asymmetric_counterexample :
    carol.is_authenticated = true ∧
      is_system_owner none carol = false ∧
      subDirInternalEditability.node.ownerId ≠ some carol.id ∧
      (∀ r ∈ dirChain subDirInternalEditability,
        r.perms.any (q_matches carol) = false) ∧
      (∃ a ∈ subDirInternalEditability.ancestors,
        a.ownerId = some carol.id) ∧
      can_edit_directory none carol subDirInternalEditability = true := by
  refine ⟨rfl, rfl, by decide, by decide, ⟨topOwnedRec, by decide, rfl⟩, ?_⟩
  decide

/-- C10 amended: for an authenticated principal who owns an ancestor of a
node but holds no matching grants anywhere on the chain, is not the
owner of the node and is not the system owner: a non-public container is
viewable (the container walk checks ancestor ownership); a private page
is not viewable (the page walk checks only grants); and neither a
container nor a page is editable provided its editability is Restricted
(the edit walks check only Edit/Owner grants; an Internal-editability
node is editable by any authenticated principal regardless). -/
theorem ancestor_ownership_asymmetric (sys : Option Nat) (u : User)
    (d : Directory) (p : Page) :
    (u.is_authenticated = true →
      is_system_owner sys u = false →
      d.node.visibility ≠ Visibility.public →
      d.node.ownerId ≠ some u.id →
      (∀ r ∈ dirChain d, r.perms.any (q_matches u) = false) →
      (∃ a ∈ d.ancestors, a.ownerId = some u.id) →
      can_view_directory sys u d = true) ∧
    (u.is_authenticated = true →
      is_system_owner sys u = false →
      p.visibility = Visibility.priv →
      p.ownerId ≠ some u.id →
      p.perms.any (q_matches u) = false →
      p.directory = some d →
      (∀ r ∈ dirChain d, r.perms.any (q_matches u) = false) →
      (∃ a ∈ d.ancestors, a.ownerId = some u.id) →
      can_view_page sys u p = false) ∧
    (u.is_authenticated = true →
      is_system_owner sys u = false →
      d.node.editability = Editability.restricted →
      d.node.ownerId ≠ some u.id →
      (∀ r ∈ dirChain d, r.perms.any (q_matches u) = false) →
      (∃ a ∈ d.ancestors, a.ownerId = some u.id) →
      can_edit_directory sys u d = false) ∧
    (u.is_authenticated = true →
      is_system_owner sys u = false →
      p.editability = Editability.restricted →
      p.ownerId ≠ some u.id →
      p.perms.any (q_matches u) = false →
      p.directory = some d →
      (∀ r ∈ dirChain d, r.perms.any (q_matches u) = false) →
      (∃ a ∈ d.ancestors, a.ownerId = some u.id) →
      can_edit_page sys u p = false) := by
  refine ⟨?_, ?_, ?_, ?_⟩
  · intro hauth hsys hvis hown hperms hanc
    obtain ⟨a, hamem, haown⟩ := hanc
    have hnode : d.node.perms.any (q_matches u) = false :=
      hperms d.node (List.mem_cons_self d.node d.ancestors)
    have hwalk := viewWalk_of_owner_mem u a d.ancestors hamem haown
    simp [can_view_directory, hauth, hsys, hown, hnode, hwalk, hvis]
  · intro hauth hsys hvis hown hperms hdir hchain _
    have hwalk : pagePermWalk u (dirChain d) = false :=
      pagePermWalk_false u (dirChain d) hchain
    unfold can_view_page
    rw [hdir, hvis]
    cases hcv : can_view_directory sys u d with
    | false => simp [hauth, hcv]
    | true => simp [hauth, hsys, hown, hperms, hwalk]
  · intro hauth hsys hed hown hperms _
    have hwalk : editPermWalk u (dirChain d) = false :=
      editPermWalk_false u (dirChain d) hperms
    simp [can_edit_directory, hauth, hsys, hown, hed, hwalk]
  · intro hauth hsys hed hown hperms hdir hchain _
    have hwalk : editPermWalk u (dirChain d) = false :=
      editPermWalk_false u (dirChain d) hchain
    have hpe : p.perms.any (q_edit_matches u) = false :=
      any_q_matches_false_edit u p.perms hperms
    simp [can_edit_page, hauth, hsys, hown, hed, hwalk, hdir, hpe]

/-- C10 amended witness: `carol` owns `top`, the parent of a private
restricted subdirectory holding a private restricted page; she can view
the subdirectory but neither view the page nor edit either node. -/
theorem ancestor_ownership_asymmetric_witness :
    can_view_directory none carol subDirOwnedAncestor = true ∧
      can_view_page none carol pageUnderOwnedAncestor = false ∧
      can_edit_directory none carol subDirOwnedAncestor = false ∧
      can_edit_page none carol pageUnderOwnedAncestor = false :=
  have h := ancestor_ownership_asymmetric none carol subDirOwnedAncestor
    pageUnderOwnedAncestor
  ⟨h.1 rfl rfl (by decide) (by decide) (by decide)
      ⟨topOwnedRec, by decide, rfl⟩,
    h.2.1 rfl rfl rfl (by decide) (by decide) rfl (by decide)
      ⟨topOwnedRec, by decide, rfl⟩,
    h.2.2.1 rfl rfl rfl (by decide) (by decide)
      ⟨topOwnedRec, by decide, rfl⟩,
    h.2.2.2 rfl rfl rfl (by decide) (by decide) rfl (by decide)
      ⟨topOwnedRec, by decide, rfl⟩⟩

/-! ### Grant-propagation lemmas -/

theorem mem_get_or_create (perms : List Perm) (dp g : Perm)
    (h : g ∈ perms) : g ∈ get_or_create perms dp := by
  unfold get_or_create
  split
  · exact h
  · exact List.mem_append_left _ h

theorem mem_ensureGrants (dps : List Perm) (perms : List Perm) (g : Perm)
    (h : g ∈ perms) : g ∈ ensureGrants dps perms := by
  induction dps generalizing perms with
  | nil => exact h
  | cons dp rest ih => exact ih _ (mem_get_or_create perms dp g h)

theorem pp_lookup_created (dp : Perm) :
    pp_lookup dp (created_from dp) = true := by
  cases h : dp.user <;> simp [pp_lookup, created_from, h]

theorem get_or_create_matches (perms : List Perm) (dp : Perm) :
    ∃ g ∈ get_or_create perms dp, pp_lookup dp g = true := by
  unfold get_or_create
  split
  · rename_i hany
    obtain ⟨g, hg, hl⟩ := List.any_eq_true.mp hany
    exact ⟨g, hg, hl⟩
  · exact ⟨created_from dp, List.mem_append_right _ (List.mem_singleton.mpr rfl),
      pp_lookup_created dp⟩

theorem ensureGrants_matches (dps : List Perm) (perms : List Perm) (dp : Perm)
    (h : dp ∈ dps) : ∃ g ∈ ensureGrants dps perms, pp_lookup dp g = true := by
  induction dps generalizing perms with
  | nil => cases h
  | cons hd rest ih =>
    rcases List.mem_cons.mp h with heq | hmem
    · subst heq
      obtain ⟨g, hg, hl⟩ := get_or_create_matches perms dp
      exact ⟨g, mem_ensureGrants rest _ g hg, hl⟩
    · exact ih _ hmem

theorem ensureGrants_noop (dps : List Perm) (perms : List Perm)
    (h : ∀ dp ∈ dps, ∃ g ∈ perms, pp_lookup dp g = true) :
    ensureGrants dps perms = perms := by
  induction dps with
  | nil => rfl
  | cons hd rest ih =>
    have hany : perms.any (pp_lookup hd) = true := by
      rw [List.any_eq_true]
      obtain ⟨g, hg, hl⟩ := h hd (List.mem_cons_self hd rest)
      exact ⟨g, hg, hl⟩
    show ensureGrants rest (get_or_create perms hd) = perms
    rw [get_or_create, if_pos hany]
    exact ih (fun dp hdp => h dp (List.mem_cons_of_mem hd hdp))

theorem ensureGrants_idempotent (dps : List Perm) (perms : List Perm) :
    ensureGrants dps (ensureGrants dps perms) = ensureGrants dps perms :=
  ensureGrants_noop dps _ (fun dp hdp => ensureGrants_matches dps perms dp hdp)

theorem nodup_get_or_create (perms : List Perm) (dp : Perm)
    (h : perms.Nodup) : (get_or_create perms dp).Nodup := by
  unfold get_or_create
  split
  · exact h
  · rename_i hany
    have hnotmem : created_from dp ∉ perms := by
      intro hmem
      have : perms.any (pp_lookup dp) = true :=
        List.any_eq_true.mpr ⟨created_from dp, hmem, pp_lookup_created dp⟩
      simp [this] at hany
    simp [List.nodup_append, h, hnotmem]

theorem nodup_ensureGrants (dps : List Perm) (perms : List Perm)
    (h : perms.Nodup) : (ensureGrants dps perms).Nodup := by
  induction dps generalizing perms with
  | nil => exact h
  | cons hd rest ih => exact ih _ (nodup_get_or_create perms hd h)

/-! ### Tree-propagation lemmas -/

theorem applyChildren_eq_map (sv : Visibility) (se : Editability)
    (sp : List Perm) (ts : List DirTree) :
    applyChildren sv se sp ts = ts.map (applyChild sv se sp) := by
  induction ts with
  | nil => rfl
  | cons c cs ih => simp [applyChildren, ih]

mutual

theorem allSubdirs_applyChild (sv : Visibility) (se : Editability)
    (sp : List Perm) :
    ∀ t : DirTree, allSubdirs (applyChild sv se sp t) =
      (allSubdirs t).map (applyChild sv se sp)
  | .mk v e ps pgs cs => by
    simp only [applyChild, allSubdirs]
    exact allSubdirsList_applyChildren sv se sp cs

theorem allSubdirsList_applyChildren (sv : Visibility) (se : Editability)
    (sp : List Perm) :
    ∀ ts : List DirTree, allSubdirsList (applyChildren sv se sp ts) =
      (allSubdirsList ts).map (applyChild sv se sp)
  | [] => rfl
  | c :: cs => by
    simp only [applyChildren, allSubdirsList, List.map_cons, List.map_append]
    rw [allSubdirs_applyChild sv se sp c, allSubdirsList_applyChildren sv se sp cs]

end

mutual

theorem allPages_applyChild (sv : Visibility) (se : Editability)
    (sp : List Perm) :
    ∀ t : DirTree, allPages (applyChild sv se sp t) =
      (allPages t).map (applyToPage sv se sp)
  | .mk v e ps pgs cs => by
    simp only [applyChild, allPages, List.map_append]
    rw [allPagesList_applyChildren sv se sp cs]

theorem allPagesList_applyChildren (sv : Visibility) (se : Editability)
    (sp : List Perm) :
    ∀ ts : List DirTree, allPagesList (applyChildren sv se sp ts) =
      (allPagesList ts).map (applyToPage sv se sp)
  | [] => rfl
  | c :: cs => by
    simp only [applyChildren, allPagesList, List.map_append]
    rw [allPages_applyChild sv se sp c, allPagesList_applyChildren sv se sp cs]

end

theorem allPages_applyRecursive :
    ∀ t : DirTree, allPages (applyPermissions Scope.recursive t) =
      (allPages t).map (applyToPage t.visibility t.editability t.perms)
  | .mk v e ps pgs cs => by
    simp only [applyPermissions, allPages, DirTree.visibility,
      DirTree.editability, DirTree.perms, List.map_append]
    rw [allPagesList_applyChildren]

theorem allSubdirs_applyRecursive :
    ∀ t : DirTree, allSubdirs (applyPermissions Scope.recursive t) =
      (allSubdirs t).map (applyChild t.visibility t.editability t.perms)
  | .mk v e ps pgs cs => by
    simp only [applyPermissions, allSubdirs, DirTree.visibility,
      DirTree.editability, DirTree.perms]
    exact allSubdirsList_applyChildren v e ps cs

theorem applyChild_visibility (sv : Visibility) (se : Editability)
    (sp : List Perm) (t : DirTree) :
    (applyChild sv se sp t).visibility = sv := by
  cases t; rfl

theorem applyChild_editability (sv : Visibility) (se : Editability)
    (sp : List Perm) (t : DirTree) :
    (applyChild sv se sp t).editability = se := by
  cases t; rfl

theorem applyChild_perms (sv : Visibility) (se : Editability)
    (sp : List Perm) (t : DirTree) :
    (applyChild sv se sp t).perms = ensureGrants sp t.perms := by
  cases t; rfl

/-- C5: the recursive apply copies the values of the top-level container onto
every descendant directory and every descendant page, at any depth, and
for every grant of the top-level container a matching grant (same
`get_or_create` lookup key: principal and permission type) exists on the
descendant. -/
theorem recursive_apply_copies_from_root (t : DirTree) :
    (∀ s ∈ allSubdirs (applyPermissions Scope.recursive t),
      s.visibility = t.visibility ∧ s.editability = t.editability ∧
        ∀ dp ∈ t.perms, ∃ g ∈ s.perms, pp_lookup dp g = true) ∧
    (∀ pg ∈ allPages (applyPermissions Scope.recursive t),
      pg.visibility = t.visibility ∧ pg.editability = t.editability ∧
        ∀ dp ∈ t.perms, ∃ g ∈ pg.perms, pp_lookup dp g = true) := by
  constructor
  · intro s hs
    rw [allSubdirs_applyRecursive] at hs
    obtain ⟨s0, _, rfl⟩ := List.mem_map.mp hs
    refine ⟨applyChild_visibility _ _ _ _, applyChild_editability _ _ _ _, ?_⟩
    intro dp hdp
    rw [applyChild_perms]
    exact ensureGrants_matches _ _ dp hdp
  · intro pg hpg
    rw [allPages_applyRecursive] at hpg
    obtain ⟨pg0, _, rfl⟩ := List.mem_map.mp hpg
    refine ⟨rfl, rfl, ?_⟩
    intro dp hdp
    exact ensureGrants_matches _ _ dp hdp

/-- A directory-grant row granting Edit to user 8. -/
def pEdit : Perm := { user := some 8, group := none, ptype := PermType.edit }

/-- A public internal-editability page with no grants. -/
def samplePage : PageNode :=
  { visibility := Visibility.public, editability := Editability.internal
    perms := [] }

/-- A grants-free internal directory two levels below the sample root. -/
def sampleGrandchild : DirTree :=
  .mk Visibility.internal Editability.restricted [] [] []

/-- A public child directory holding `samplePage` and
`sampleGrandchild`. -/
def sampleChild : DirTree :=
  .mk Visibility.public Editability.internal [] [samplePage] [sampleGrandchild]

/-- A private restricted root carrying the Edit grant `pEdit`, one direct
page and the child subtree. -/
def sampleTree : DirTree :=
  .mk Visibility.priv Editability.restricted [pEdit] [samplePage] [sampleChild]

/-- C5 witness: in the concrete sample subtree, the transformed child
directory and the transformed direct page both take the private
restricted values and a grant matching `pEdit`. -/
theorem recursive_apply_copies_from_root_witness :
    (applyChild Visibility.priv Editability.restricted [pEdit]
        sampleChild).visibility = Visibility.priv ∧
      (applyToPage Visibility.priv Editability.restricted [pEdit]
        samplePage).editability = Editability.restricted ∧
      (∃ g ∈ (applyChild Visibility.priv Editability.restricted [pEdit]
        sampleChild).perms, pp_lookup pEdit g = true) := by
  have h := recursive_apply_copies_from_root sampleTree
  have hs := h.1
    (applyChild Visibility.priv Editability.restricted [pEdit] sampleChild)
    (List.Mem.head _)
  have hp := h.2
    (applyToPage Visibility.priv Editability.restricted [pEdit] samplePage)
    (List.Mem.head _)
  exact ⟨hs.1, hp.2.1, hs.2.2 pEdit (List.Mem.head _)⟩

theorem applyToPage_idem (sv : Visibility) (se : Editability)
    (sp : List Perm) (pg : PageNode) :
    applyToPage sv se sp (applyToPage sv se sp pg) = applyToPage sv se sp pg := by
  simp [applyToPage, ensureGrants_idempotent]

theorem map_applyToPage_idem (sv : Visibility) (se : Editability)
    (sp : List Perm) :
    ∀ pgs : List PageNode,
      (pgs.map (applyToPage sv se sp)).map (applyToPage sv se sp) =
        pgs.map (applyToPage sv se sp)
  | [] => rfl
  | pg :: rest => by
    simp only [List.map_cons]
    rw [applyToPage_idem, map_applyToPage_idem]

mutual

theorem applyChild_idem (sv : Visibility) (se : Editability) (sp : List Perm) :
    ∀ t : DirTree,
      applyChild sv se sp (applyChild sv se sp t) = applyChild sv se sp t
  | .mk v e ps pgs cs => by
    show DirTree.mk sv se (ensureGrants sp (ensureGrants sp ps))
        ((pgs.map (applyToPage sv se sp)).map (applyToPage sv se sp))
        (applyChildren sv se sp (applyChildren sv se sp cs)) =
      DirTree.mk sv se (ensureGrants sp ps) (pgs.map (applyToPage sv se sp))
        (applyChildren sv se sp cs)
    rw [ensureGrants_idempotent, map_applyToPage_idem,
      applyChildren_idem sv se sp cs]

theorem applyChildren_idem (sv : Visibility) (se : Editability)
    (sp : List Perm) :
    ∀ ts : List DirTree,
      applyChildren sv se sp (applyChildren sv se sp ts) =
        applyChildren sv se sp ts
  | [] => rfl
  | c :: cs => by
    simp only [applyChildren]
    rw [applyChild_idem sv se sp c, applyChildren_idem sv se sp cs]

end

theorem applyPermissions_recursive_idem :
    ∀ t : DirTree,
      applyPermissions Scope.recursive (applyPermissions Scope.recursive t) =
        applyPermissions Scope.recursive t
  | .mk v e ps pgs cs => by
    show DirTree.mk v e ps
        ((pgs.map (applyToPage v e ps)).map (applyToPage v e ps))
        (applyChildren v e ps (applyChildren v e ps cs)) =
      DirTree.mk v e ps (pgs.map (applyToPage v e ps))
        (applyChildren v e ps cs)
    rw [map_applyToPage_idem, applyChildren_idem]

/-- C6: the apply operation is strictly additive and idempotent: the top
own grant list of the top container is untouched; positionwise, every pre-existing
grant of a descendant directory or page survives; starting from
duplicate-free grant lists it creates no duplicate `(principal,
permission_type)` row; and running the recursive operation twice equals
running it once. -/
theorem apply_additive_idempotent (t : DirTree) (scope : Scope) :
    (applyPermissions scope t).perms = t.perms ∧
    List.Forall₂ (fun b a => ∀ g ∈ DirTree.perms b, g ∈ DirTree.perms a)
      (allSubdirs t) (allSubdirs (applyPermissions scope t)) ∧
    List.Forall₂ (fun b a => ∀ g ∈ PageNode.perms b, g ∈ PageNode.perms a)
      (allPages t) (allPages (applyPermissions scope t)) ∧
    ((∀ s ∈ allSubdirs t, s.perms.Nodup) →
      (∀ pg ∈ allPages t, pg.perms.Nodup) →
      (∀ s ∈ allSubdirs (applyPermissions scope t), s.perms.Nodup) ∧
      (∀ pg ∈ allPages (applyPermissions scope t), pg.perms.Nodup)) ∧
    applyPermissions Scope.recursive (applyPermissions Scope.recursive t) =
      applyPermissions Scope.recursive t := by
  cases scope with
  | direct =>
    obtain ⟨v, e, ps, pgs, cs⟩ := t
    refine ⟨rfl, ?_, ?_, ?_, applyPermissions_recursive_idem _⟩
    · exact List.forall₂_same.mpr (fun x _ g hg => hg)
    · show List.Forall₂ _ (pgs ++ allPagesList cs)
        (pgs.map (applyToPage v e ps) ++ allPagesList cs)
      refine List.rel_append ?_ ?_
      · exact List.forall₂_map_right_iff.mpr
          (List.forall₂_same.mpr (fun pg _ g hg => mem_ensureGrants _ _ g hg))
      · exact List.forall₂_same.mpr (fun x _ g hg => hg)
    · intro hdirs hpgs
      refine ⟨hdirs, ?_⟩
      intro pg hpg
      rcases List.mem_append.mp hpg with h | h
      · obtain ⟨pg0, hpg0, rfl⟩ := List.mem_map.mp h
        exact nodup_ensureGrants _ _
          (hpgs pg0 (List.mem_append_left _ hpg0))
      · exact hpgs pg (List.mem_append_right _ h)
  | recursive =>
    refine ⟨?_, ?_, ?_, ?_, applyPermissions_recursive_idem _⟩
    · obtain ⟨v, e, ps, pgs, cs⟩ := t
      rfl
    · rw [allSubdirs_applyRecursive]
      exact List.forall₂_map_right_iff.mpr
        (List.forall₂_same.mpr (fun s _ g hg => by
          rw [applyChild_perms]
          exact mem_ensureGrants _ _ g hg))
    · rw [allPages_applyRecursive]
      exact List.forall₂_map_right_iff.mpr
        (List.forall₂_same.mpr (fun pg _ g hg => mem_ensureGrants _ _ g hg))
    · intro hdirs hpgs
      constructor
      · intro s hs
        rw [allSubdirs_applyRecursive] at hs
        obtain ⟨s0, hs0, rfl⟩ := List.mem_map.mp hs
        rw [applyChild_perms]
        exact nodup_ensureGrants _ _ (hdirs s0 hs0)
      · intro pg hpg
        rw [allPages_applyRecursive] at hpg
        obtain ⟨pg0, hpg0, rfl⟩ := List.mem_map.mp hpg
        exact nodup_ensureGrants _ _ (hpgs pg0 hpg0)

/-- C6 witness: on the concrete sample subtree with recursive scope, the
root grant list is untouched, the transformed child keeps duplicate-free
grants, and a second recursive run is a no-op. -/
theorem apply_additive_idempotent_witness :
    (applyPermissions Scope.recursive sampleTree).perms = sampleTree.perms ∧
      (∀ s ∈ allSubdirs (applyPermissions Scope.recursive sampleTree),
        s.perms.Nodup) ∧
      applyPermissions Scope.recursive
          (applyPermissions Scope.recursive sampleTree) =
        applyPermissions Scope.recursive sampleTree :=
  have h := apply_additive_idempotent sampleTree Scope.recursive
  ⟨h.1,
    (h.2.2.2.1 (by decide) (by decide)).1,
    h.2.2.2.2⟩

mutual

theorem count_recursive_eq :
    ∀ t : DirTree,
      count_recursive t = ((allPages t).length, (allSubdirs t).length)
  | .mk v e ps pgs cs => by
    have h := count_list_eq cs
    simp only [count_recursive, allPages, allSubdirs, List.length_append]
    rw [Prod.mk.injEq]
    exact ⟨by omega, by omega⟩

theorem count_list_eq :
    ∀ ts : List DirTree,
      (count_list ts).1 = (allPagesList ts).length ∧
        ts.length + (count_list ts).2 = (allSubdirsList ts).length
  | [] => ⟨rfl, rfl⟩
  | c :: cs => by
    have hc := count_recursive_eq c
    have hcs := count_list_eq cs
    simp only [count_list, allPagesList, allSubdirsList, List.length_append,
      List.length_cons, hc]
    exact ⟨by omega, by omega⟩

end

/-- An empty public directory subtree. -/
def emptyTree : DirTree := .mk Visibility.public Editability.internal [] [] []

/-- C7 counterexample: the POST branch of the apply view returns the same
fixed flash message for two subtrees whose page/subdirectory counts
differ, so its return value carries no `{itemsUpdated,
containersUpdated}` counts. -/
theorem apply_returns_no_counts_counterexample :
    (directoryApplyPermissionsPost Scope.recursive emptyTree).message =
        (directoryApplyPermissionsPost Scope.recursive sampleTree).message ∧
      count_recursive emptyTree ≠ count_recursive sampleTree :=
  ⟨rfl, by decide⟩

/-- C7 amended: the POST operation returns only a fixed scope-dependent
flash message; the counts are computed by `count_recursive` on the GET
confirmation page, before the operation, and equal the number of pages
and of descendant directories the recursive operation rewrites. -/
theorem apply_counts_on_confirmation_page (t : DirTree) (scope : Scope) :
    (directoryApplyPermissionsPost scope t).message =
        applyPermissionsMessage scope ∧
      count_recursive t =
        ((allPages (applyPermissions Scope.recursive t)).length,
          (allSubdirs (applyPermissions Scope.recursive t)).length) := by
  refine ⟨rfl, ?_⟩
  rw [allPages_applyRecursive, allSubdirs_applyRecursive,
    List.length_map, List.length_map]
  exact count_recursive_eq t

/-- C8: each write path (create, edit, move) validates before saving; on
a violation the stored state is returned unchanged and the outcome names
the specific invariant that failed (openness checked first, then
editability/visibility). -/
theorem rejected_write_leaves_state_unchanged (db : List PageWrite)
    (proposed stored : PageWrite) (dirVis : Option Visibility)
    (pageVis : Visibility) (curDir newDir : Option Visibility) :
    ((page_create_post db proposed dirVis).1 ≠ WriteOutcome.saved →
      (page_create_post db proposed dirVis).2 = db) ∧
    ((page_create_post db proposed dirVis).1 = WriteOutcome.opennessError ↔
      (match dirVis with
       | some dv => is_more_open_than proposed.visibility dv
       | none => false) = true) ∧
    ((page_create_post db proposed dirVis).1 = WriteOutcome.editabilityError ↔
      (match dirVis with
       | some dv => is_more_open_than proposed.visibility dv
       | none => false) = false ∧
      is_editability_more_open_than_visibility proposed.editability
        proposed.visibility = true) ∧
    ((page_edit_post stored proposed dirVis).1 ≠ WriteOutcome.saved →
      (page_edit_post stored proposed dirVis).2 = stored) ∧
    ((page_move_post pageVis curDir newDir).1 ≠ WriteOutcome.saved →
      (page_move_post pageVis curDir newDir).2 = curDir) := by
  refine ⟨?_, ?_, ?_, ?_, ?_⟩
  · unfold page_create_post
    split
    · intro _; rfl
    · split
      · intro _; rfl
      · intro h; exact absurd rfl h
  · unfold page_create_post
    split
    · rename_i hc; simp [hc]
    · rename_i hc
      split <;> simp [hc]
  · unfold page_create_post
    split
    · rename_i hc; simp [hc]
    · rename_i hc
      rw [Bool.not_eq_true] at hc
      split <;> rename_i he <;> simp [hc, he]
  · unfold page_edit_post
    split
    · intro _; rfl
    · split
      · intro _; rfl
      · intro h; exact absurd rfl h
  · unfold page_move_post
    split
    · intro _; rfl
    · intro h; exact absurd rfl h

/-- C8 witness: creating a Public page under a Private directory is
rejected as an openness violation with the store unchanged, and moving a
Public page into a Private directory leaves the directory of the page
unchanged. -/
theorem rejected_write_leaves_state_unchanged_witness :
    (page_create_post []
      { visibility := Visibility.public, editability := Editability.restricted }
      (some Visibility.priv)).2 = ([] : List PageWrite) ∧
    (page_create_post []
      { visibility := Visibility.public, editability := Editability.restricted }
      (some Visibility.priv)).1 = WriteOutcome.opennessError ∧
    (page_move_post Visibility.public (some Visibility.public)
      (some Visibility.priv)).2 = some Visibility.public :=
  have h := rejected_write_leaves_state_unchanged []
    { visibility := Visibility.public, editability := Editability.restricted }
    { visibility := Visibility.priv, editability := Editability.restricted }
    (some Visibility.priv) Visibility.public (some Visibility.public)
    (some Visibility.priv)
  ⟨h.1 (by decide), h.2.1.mpr (by decide), h.2.2.2.2 (by decide)⟩

end Wiki
